import Mathlib

/-!
Verification of the FashionMNIST notebook (`src/projects/fashionMNIST.ipynb`).

The notebook defines a three-layer fully connected classifier
(`NeuralNetwork`), a training loop (`train`), an evaluation loop (`test`),
an epochs driver, parameter persistence (`torch.save` / `load_state_dict`)
and a single-sample inference cell.  We embed the authored logic shallowly:
tensors of real intensities become lists of rationals, the external
autograd/optimizer collaborators become function parameters, and the
stateful loops become explicit state passing together with an event trace
recording the order of the operations the loop performs.
-/

namespace FashionMNIST

/-- A one-dimensional tensor of values. -/
abbrev Vec := List ℚ

/-- A three-dimensional tensor (channel, height, width): one image sample
of shape (1, 28, 28), or the sub-tensor below the batch dimension. -/
abbrev Image3 := List (List (List ℚ))

/-- Dot product of two vectors, as computed by a linear layer row. -/
def dot (a b : Vec) : ℚ := (List.zipWith (fun x y => x * y) a b).sum

/-- `nn.Linear(inF, outF)`: weight matrix (out x in, row major) and bias. -/
structure Linear where
  weight : List Vec
  bias : Vec

/-- Applying a linear layer: `y = W x + b`, one entry per output feature. -/
def Linear.apply (l : Linear) (x : Vec) : Vec :=
  List.zipWith (fun w b => dot w x + b) l.weight l.bias

/-- `nn.ReLU()` applied elementwise to a vector. -/
def relu (x : Vec) : Vec := x.map (fun v => max v 0)

/-- `l` has PyTorch shape `(outF, inF)`: `outF` weight rows of length
`inF` and an `outF`-entry bias. -/
def Linear.hasShape (l : Linear) (outF inF : ℕ) : Prop :=
  l.weight.length = outF ∧ (∀ r ∈ l.weight, r.length = inF) ∧ l.bias.length = outF

/-- The parameters of the notebook's `NeuralNetwork` module: the three
`nn.Linear` layers at indices 0, 2, 4 of `linear_relu_stack`. -/
structure NeuralNetwork where
  fc1 : Linear
  fc2 : Linear
  fc3 : Linear

/-- The topology fixed by the constructor: `Linear(28*28, 512)`,
`Linear(512, 512)`, `Linear(512, 10)`. -/
def NeuralNetwork.wellFormed (n : NeuralNetwork) : Prop :=
  n.fc1.hasShape 512 784 ∧ n.fc2.hasShape 512 512 ∧ n.fc3.hasShape 10 512

/-- `nn.Flatten()` (start_dim=1) acting on the sub-tensor below the kept
leading dimension: every remaining dimension is flattened into one vector. -/
def flattenImage (im : Image3) : Vec := im.flatten.flatten

/-- The `linear_relu_stack` sequential module applied to one flattened
sample: Linear, ReLU, Linear, ReLU, Linear, raw output returned. -/
def linearReluStack (n : NeuralNetwork) (v : Vec) : Vec :=
  n.fc3.apply (relu (n.fc2.apply (relu (n.fc1.apply v))))

/-- `NeuralNetwork.forward` on a batched input of shape (B, 1, 28, 28):
`x = self.flatten(x)` keeps dimension 0 and flattens each sample, then
`logits = self.linear_relu_stack(x)` acts row-wise. -/
def NeuralNetwork.forward (n : NeuralNetwork) (x : List Image3) : List Vec :=
  (x.map flattenImage).map (linearReluStack n)

/-- `NeuralNetwork.forward` on a single unbatched sample of shape
(1, 28, 28): `nn.Flatten` keeps dimension 0 (the channel dimension, of
size 1) and flattens the 28 x 28 grid below it, so the stack acts on each
of the (one) flattened rows. -/
def NeuralNetwork.forward3 (n : NeuralNetwork) (x : Image3) : List Vec :=
  (x.map List.flatten).map (linearReluStack n)

/-- The Model contract exactly as the specification words it: flatten each
sample to a length-784 vector, then linear 784-to-512, ReLU, linear
512-to-512, ReLU, linear 512-to-10, returning the raw final output. -/
def specForward (n : NeuralNetwork) (x : List Image3) : List Vec :=
  x.map (fun im => n.fc3.apply (relu (n.fc2.apply (relu (n.fc1.apply (flattenImage im))))))

/-- An image has shape (c, h, w). -/
def imageHasShape (im : Image3) (c h w : ℕ) : Prop :=
  im.length = c ∧ ∀ plane ∈ im, plane.length = h ∧ ∀ row ∈ plane, row.length = w

lemma length_flatten_const {α : Type} (L : List (List α)) (n : ℕ)
    (h : ∀ r ∈ L, r.length = n) : L.flatten.length = L.length * n := by
  induction L with
  | nil => simp
  | cons r L ih =>
    simp only [List.flatten_cons, List.length_append, List.length_cons]
    rw [h r (List.mem_cons_self r L), ih (fun s hs => h s (List.mem_cons_of_mem r hs))]
    ring

lemma flattenImage_length (im : Image3) (h : imageHasShape im 1 28 28) :
    (flattenImage im).length = 784 := by
  obtain ⟨hc, hrest⟩ := h
  unfold flattenImage
  have h1 : im.flatten.length = 28 := by
    rw [length_flatten_const im 28 (fun p hp => (hrest p hp).1), hc]
  have h2 : ∀ row ∈ im.flatten, row.length = 28 := by
    intro row hrow
    obtain ⟨plane, hplane, hrowmem⟩ := List.mem_flatten.mp hrow
    exact (hrest plane hplane).2 row hrowmem
  rw [length_flatten_const im.flatten 28 h2, h1]

lemma Linear.apply_length (l : Linear) (outF inF : ℕ) (h : l.hasShape outF inF)
    (x : Vec) : (l.apply x).length = outF := by
  obtain ⟨hw, _, hb⟩ := h
  simp [Linear.apply, List.length_zipWith, hw, hb]

lemma relu_length (x : Vec) : (relu x).length = x.length := by
  simp [relu]

lemma linearReluStack_length (n : NeuralNetwork) (h : n.wellFormed) (v : Vec) :
    (linearReluStack n v).length = 10 := by
  obtain ⟨h1, h2, h3⟩ := h
  unfold linearReluStack
  exact n.fc3.apply_length 10 512 h3 _

/-- C1: For every input batch of shape (batch-size, 1, 28, 28), the Model's
forward computation equals: flatten each sample to a length-784 vector,
then linear 784-to-512, ReLU, linear 512-to-512, ReLU, linear 512-to-10,
returning the final layer's raw output; the output has shape
(batch-size, 10) for every batch size. -/
theorem model_forward_spec (n : NeuralNetwork) (x : List Image3)
    (hn : n.wellFormed) (hx : ∀ im ∈ x, imageHasShape im 1 28 28) :
    n.forward x = specForward n x ∧
    (∀ im ∈ x, (flattenImage im).length = 784) ∧
    (n.forward x).length = x.length ∧
    ∀ v ∈ n.forward x, v.length = 10 := by
  refine ⟨?_, ?_, ?_, ?_⟩
  · simp [NeuralNetwork.forward, specForward, linearReluStack]
  · intro im him
    exact flattenImage_length im (hx im him)
  · simp [NeuralNetwork.forward]
  · intro v hv
    simp only [NeuralNetwork.forward, List.map_map, List.mem_map] at hv
    obtain ⟨im, _, rfl⟩ := hv
    exact linearReluStack_length n hn _

/-- A linear layer of shape (outF, inF) filled with zeros, standing in for
one random initialization. -/
def zeroLinear (outF inF : ℕ) : Linear :=
  ⟨List.replicate outF (List.replicate inF 0), List.replicate outF 0⟩

lemma zeroLinear_hasShape (outF inF : ℕ) : (zeroLinear outF inF).hasShape outF inF := by
  refine ⟨by simp [zeroLinear], ?_, by simp [zeroLinear]⟩
  intro r hr
  simp only [zeroLinear] at hr
  rw [List.eq_of_mem_replicate hr]
  simp

/-- A network of the notebook's topology filled with zeros. -/
def zeroNet : NeuralNetwork :=
  ⟨zeroLinear 512 784, zeroLinear 512 512, zeroLinear 10 512⟩

lemma zeroNet_wellFormed : zeroNet.wellFormed :=
  ⟨zeroLinear_hasShape 512 784, zeroLinear_hasShape 512 512, zeroLinear_hasShape 10 512⟩

/-- An all-zero image of shape (1, 28, 28). -/
def zeroImage : Image3 := List.replicate 1 (List.replicate 28 (List.replicate 28 0))

lemma zeroImage_shape : imageHasShape zeroImage 1 28 28 := by
  refine ⟨by simp [zeroImage], ?_⟩
  intro plane hplane
  simp only [zeroImage] at hplane
  rw [List.eq_of_mem_replicate hplane]
  refine ⟨by simp, ?_⟩
  intro row hrow
  rw [List.eq_of_mem_replicate hrow]
  simp

/-- Witness for C1 at a concrete well-formed network and a concrete
one-sample batch of shape (1, 1, 28, 28). -/
theorem model_forward_spec_witness :
    zeroNet.forward [zeroImage] = specForward zeroNet [zeroImage] ∧
    (∀ im ∈ [zeroImage], (flattenImage im).length = 784) ∧
    (zeroNet.forward [zeroImage]).length = [zeroImage].length ∧
    ∀ v ∈ zeroNet.forward [zeroImage], v.length = 10 := by
  refine model_forward_spec _ _ zeroNet_wellFormed ?_
  intro im him
  rw [List.mem_singleton.mp him]
  exact zeroImage_shape

/-- Index of a maximal element, scanning left to right (`torch.argmax`
along a dimension of a nonempty vector); on an empty vector we return 0. -/
def argmaxAux : List ℚ → ℕ → ℕ → ℚ → ℕ
  | [], _, bi, _ => bi
  | x :: xs, i, bi, bv =>
      if bv < x then argmaxAux xs (i + 1) i x else argmaxAux xs (i + 1) bi bv

/-- `v.argmax(0)` for a vector / one row of `pred.argmax(1)`. -/
def argmax : Vec → ℕ
  | [] => 0
  | x :: xs => argmaxAux xs 1 0 x

lemma argmaxAux_lt (xs : List ℚ) (i bi : ℕ) (bv : ℚ) (h : bi < i) :
    argmaxAux xs i bi bv < i + xs.length := by
  induction xs generalizing i bi bv with
  | nil => simpa [argmaxAux] using h
  | cons x xs ih =>
    simp only [argmaxAux, List.length_cons]
    by_cases hlt : bv < x
    · rw [if_pos hlt]
      have := ih (i + 1) i x (Nat.lt_succ_self i)
      omega
    · rw [if_neg hlt]
      have := ih (i + 1) bi bv (Nat.lt_succ_of_lt h)
      omega

lemma argmax_lt_length (v : Vec) (h : v ≠ []) : argmax v < v.length := by
  match v with
  | x :: xs =>
    have h1 := argmaxAux_lt xs 1 0 x Nat.one_pos
    simp only [argmax, List.length_cons]
    omega

/-- The `classes` list of the prediction cell: the ten FashionMNIST
human-readable class names, in index order. -/
def classes : List String :=
  ["T-shirt/top", "Trouser", "Pullover", "Dress", "Coat",
   "Sandal", "Shirt", "Sneaker", "Bag", "Ankle boot"]

/-- C10: For a single unbatched sample of shape (1, 28, 28), the forward
computation (flattening from dimension 1) outputs shape (1, 10); the
argmax of the first output row is in [0, 9], so indexing the 10-element
class-name list with either the predicted index or a true label below 10
stays in range. -/
theorem single_sample_inference_safe (n : NeuralNetwork) (x : Image3) (y : ℕ)
    (hn : n.wellFormed) (hx : imageHasShape x 1 28 28) (hy : y < 10) :
    (∃ v, n.forward3 x = [v] ∧ v.length = 10 ∧
      argmax v < classes.length) ∧
    classes.length = 10 ∧ y < classes.length := by
  obtain ⟨hc, _⟩ := hx
  match x, hc with
  | [plane], _ =>
    refine ⟨⟨linearReluStack n plane.flatten, rfl, ?_, ?_⟩, rfl, by simpa using hy⟩
    · exact linearReluStack_length n hn _
    · have hlen : (linearReluStack n plane.flatten).length = 10 :=
        linearReluStack_length n hn _
      have hne : linearReluStack n plane.flatten ≠ [] := by
        intro hcon
        rw [hcon] at hlen
        simp at hlen
      have := argmax_lt_length _ hne
      rw [hlen] at this
      simpa [classes] using this

/-- Witness for C10 at the zero network, the zero image of shape
(1, 28, 28), and true label 2 ("Pullover", the sample in the notebook). -/
theorem single_sample_inference_safe_witness :
    (∃ v, zeroNet.forward3 zeroImage = [v] ∧ v.length = 10 ∧
      argmax v < classes.length) ∧
    classes.length = 10 ∧ 2 < classes.length :=
  single_sample_inference_safe zeroNet zeroImage 2 zeroNet_wellFormed
    zeroImage_shape (by decide)

/-- One batch yielded by a `DataLoader`: the stacked inputs `X` (a list of
(1, 28, 28) samples) and the stacked labels `y`. -/
abbrev Batch := List Image3 × List ℕ

/-- A dataset as the `DataLoader` sees it: samples paired with labels. -/
abbrev Dataset := List (Image3 × ℕ)

/-- `chunkAux fuel n l`: successive groups of `n` elements of `l`; `fuel`
bounds the recursion (it is instantiated with `l.length`). -/
def chunkAux {α : Type} : ℕ → ℕ → List α → List (List α)
  | 0, _, _ => []
  | _ + 1, _, [] => []
  | fuel + 1, n, a :: l => ((a :: l).take n) :: chunkAux fuel n ((a :: l).drop n)

/-- Split a list into successive chunks of size `n` (the last chunk may be
shorter): the batching a `DataLoader` with `batch_size = n` performs. -/
def chunkList {α : Type} (n : ℕ) (l : List α) : List (List α) :=
  chunkAux l.length n l

/-- Collate one chunk of samples into a batch (stacked `X`, stacked `y`). -/
def toBatch (chunk : Dataset) : Batch := (chunk.map Prod.fst, chunk.map Prod.snd)

/-- `DataLoader(ds, batch_size=bs)` (no shuffling): the finite restartable
sequence of collated batches. -/
def dataLoader (bs : ℕ) (ds : Dataset) : List Batch := (chunkList bs ds).map toBatch

lemma chunkAux_flatten {α : Type} (n : ℕ) (hn : 0 < n) :
    ∀ (fuel : ℕ) (l : List α), l.length ≤ fuel → (chunkAux fuel n l).flatten = l := by
  intro fuel
  induction fuel with
  | zero =>
    intro l hl
    rw [List.length_eq_zero.mp (Nat.le_zero.mp hl)]
    simp [chunkAux]
  | succ fuel ih =>
    intro l hl
    match l with
    | [] => simp [chunkAux]
    | a :: l =>
      simp only [chunkAux, List.flatten_cons]
      rw [ih ((a :: l).drop n) ?_, List.take_append_drop]
      simp only [List.length_drop, List.length_cons] at hl ⊢
      omega

lemma chunkList_flatten {α : Type} (n : ℕ) (l : List α) (hn : 0 < n) :
    (chunkList n l).flatten = l :=
  chunkAux_flatten n hn l.length l (Nat.le_refl _)

/-- The mutable state the notebook's loops act on: the module's parameters,
the accumulated gradients attached to them (`none` when unset / cleared),
and the train/eval mode flag toggled by `model.train()` / `model.eval()`. -/
structure TState (G : Type) where
  net : NeuralNetwork
  grads : Option G
  training : Bool

/-- `(pred.argmax(1) == y).type(torch.float).sum()`: the number of rows of
`pred` whose argmax equals the true label. -/
def countCorrect (pred : List Vec) (y : List ℕ) : ℕ :=
  (List.zipWith (fun v l => if argmax v = l then 1 else 0) pred y).sum

/-- The evaluation loop `test(dataloader, model, loss_fn)`: `model.eval()`,
then under `torch.no_grad()` accumulate per-batch loss and correct counts,
finally divide by the number of batches and by the dataset size.  Returns
((average loss, accuracy), state after the call). -/
def test {G : Type} (lossFn : List Vec → List ℕ → ℚ) (dsize : ℕ)
    (batches : List Batch) (s : TState G) : (ℚ × ℚ) × TState G :=
  let numBatches := batches.length
  let s1 : TState G := { s with training := false }
  let acc := batches.foldl
    (fun (acc : ℚ × ℚ) b =>
      let pred := s1.net.forward b.1
      (acc.1 + lossFn pred b.2, acc.2 + (countCorrect pred b.2 : ℚ)))
    ((0 : ℚ), (0 : ℚ))
  ((acc.1 / (numBatches : ℚ), acc.2 / (dsize : ℚ)), s1)

/-- Whether the Model predicts sample `p` correctly: the argmax of its
output row equals the true label. -/
def sampleCorrect (net : NeuralNetwork) (p : Image3 × ℕ) : Bool :=
  argmax (linearReluStack net (flattenImage p.1)) == p.2

lemma foldl_pair_sum {β : Type} (l : List β) (f g : β → ℚ) (a c : ℚ) :
    l.foldl (fun (acc : ℚ × ℚ) b => (acc.1 + f b, acc.2 + g b)) (a, c) =
      (a + (l.map f).sum, c + (l.map g).sum) := by
  induction l generalizing a c with
  | nil => simp
  | cons b l ih => simp [ih, add_assoc]

lemma countCorrect_toBatch (net : NeuralNetwork) (chunk : Dataset) :
    countCorrect (net.forward (toBatch chunk).1) (toBatch chunk).2 =
      chunk.countP (sampleCorrect net) := by
  induction chunk with
  | nil => simp [countCorrect, toBatch, NeuralNetwork.forward]
  | cons p chunk ih =>
    simp only [countCorrect, toBatch, NeuralNetwork.forward, List.map_cons,
      List.zipWith_cons_cons, List.sum_cons, List.countP_cons] at ih ⊢
    rw [ih]
    by_cases h : argmax (linearReluStack net (flattenImage p.1)) = p.2
    · simp [sampleCorrect, h, Nat.add_comm]
    · simp [sampleCorrect, h]

/-- Evaluation of the `test` loop on a chunked dataset: closed forms for
both reported metrics and for the final state. -/
lemma test_eval {G : Type} (lossFn : List Vec → List ℕ → ℚ) (bs : ℕ)
    (ds : Dataset) (s : TState G) (hbs : 0 < bs) :
    test lossFn ds.length (dataLoader bs ds) s =
      ((((dataLoader bs ds).map (fun b => lossFn (s.net.forward b.1) b.2)).sum /
          ((dataLoader bs ds).length : ℚ),
        ((ds.countP (sampleCorrect s.net) : ℚ) / (ds.length : ℚ))),
       { s with training := false }) := by
  simp only [test, foldl_pair_sum, zero_add]
  refine congrArg (fun z => (z, _)) ?_
  refine congrArg₂ Prod.mk rfl ?_
  have hcount : ((dataLoader bs ds).map
      (fun b => ((countCorrect (s.net.forward b.1) b.2 : ℕ) : ℚ))).sum =
      ((ds.countP (sampleCorrect s.net) : ℕ) : ℚ) := by
    have h1 : (dataLoader bs ds).map
        (fun b => ((countCorrect (s.net.forward b.1) b.2 : ℕ) : ℚ)) =
        (chunkList bs ds).map (fun c => ((c.countP (sampleCorrect s.net) : ℕ) : ℚ)) := by
      simp only [dataLoader, List.map_map]
      refine List.map_congr_left ?_
      intro c _
      simp [Function.comp, countCorrect_toBatch]
    have h2 : ((chunkList bs ds).map (fun c => c.countP (sampleCorrect s.net))).sum =
        ds.countP (sampleCorrect s.net) := by
      conv_rhs => rw [← chunkList_flatten bs ds hbs]
      rw [List.countP_flatten]
    calc ((dataLoader bs ds).map
            (fun b => ((countCorrect (s.net.forward b.1) b.2 : ℕ) : ℚ))).sum
        = (((chunkList bs ds).map (fun c => c.countP (sampleCorrect s.net))).map
            (fun k : ℕ => (k : ℚ))).sum := by rw [h1, List.map_map]; rfl
      _ = ((((chunkList bs ds).map (fun c => c.countP (sampleCorrect s.net))).sum : ℕ) : ℚ) :=
            (Nat.cast_list_sum _).symm
      _ = ((ds.countP (sampleCorrect s.net) : ℕ) : ℚ) := by rw [h2]
  rw [hcount]

/-- C3: after one full pass of the evaluation loop, the reported average
loss equals the sum of per-batch losses divided by the number of batches,
and the reported accuracy equals the number of samples whose argmax output
index equals the true label, divided by the number of samples. -/
theorem test_metrics (G : Type) (lossFn : List Vec → List ℕ → ℚ) (bs : ℕ)
    (ds : Dataset) (s : TState G) (hbs : 0 < bs) :
    (test lossFn ds.length (dataLoader bs ds) s).1 =
      (((dataLoader bs ds).map (fun b => lossFn (s.net.forward b.1) b.2)).sum /
          ((dataLoader bs ds).length : ℚ),
       ((ds.countP (sampleCorrect s.net) : ℚ) / (ds.length : ℚ))) := by
  rw [test_eval lossFn bs ds s hbs]

/-- Witness for C3 at a concrete trivial loss function, batch size 1 and a
two-sample dataset. -/
theorem test_metrics_witness :
    (test (G := Unit) (fun _ _ => 1) (([(zeroImage, 0), (zeroImage, 1)] : Dataset)).length
        (dataLoader 1 [(zeroImage, 0), (zeroImage, 1)])
        ⟨zeroNet, none, false⟩).1 =
      (((dataLoader 1 [(zeroImage, 0), (zeroImage, 1)]).map
          (fun b => (fun (_ : List Vec) (_ : List ℕ) => (1 : ℚ)) (zeroNet.forward b.1) b.2)).sum /
          ((dataLoader 1 [(zeroImage, 0), (zeroImage, 1)]).length : ℚ),
       ((([(zeroImage, 0), (zeroImage, 1)] : Dataset).countP (sampleCorrect zeroNet) : ℚ) /
          (([(zeroImage, 0), (zeroImage, 1)] : Dataset).length : ℚ))) :=
  test_metrics Unit (fun _ _ => 1) 1 [(zeroImage, 0), (zeroImage, 1)]
    ⟨zeroNet, none, false⟩ (by decide)

/-- C6: the reported accuracy lies in [0, 1] and the reported average loss
is non-negative (the loss function, cross-entropy, is non-negative on
every batch). -/
theorem test_metrics_bounds (G : Type) (lossFn : List Vec → List ℕ → ℚ) (bs : ℕ)
    (ds : Dataset) (s : TState G) (hbs : 0 < bs)
    (hloss : ∀ pred y, 0 ≤ lossFn pred y) :
    0 ≤ (test lossFn ds.length (dataLoader bs ds) s).1.1 ∧
    0 ≤ (test lossFn ds.length (dataLoader bs ds) s).1.2 ∧
    (test lossFn ds.length (dataLoader bs ds) s).1.2 ≤ 1 := by
  rw [test_eval lossFn bs ds s hbs]
  refine ⟨?_, ?_, ?_⟩
  · refine div_nonneg ?_ (Nat.cast_nonneg _)
    refine List.sum_nonneg ?_
    intro q hq
    obtain ⟨b, _, rfl⟩ := List.mem_map.mp hq
    exact hloss _ _
  · exact div_nonneg (Nat.cast_nonneg _) (Nat.cast_nonneg _)
  · refine div_le_one_of_le₀ ?_ (Nat.cast_nonneg _)
    exact_mod_cast List.countP_le_length (sampleCorrect s.net)

/-- Witness for C6 at a concrete non-negative loss function, batch size 1
and a two-sample dataset. -/
theorem test_metrics_bounds_witness :
    0 ≤ (test (G := Unit) (fun _ _ => 1)
          (([(zeroImage, 0), (zeroImage, 1)] : Dataset)).length
          (dataLoader 1 [(zeroImage, 0), (zeroImage, 1)]) ⟨zeroNet, none, false⟩).1.1 ∧
    0 ≤ (test (G := Unit) (fun _ _ => 1)
          (([(zeroImage, 0), (zeroImage, 1)] : Dataset)).length
          (dataLoader 1 [(zeroImage, 0), (zeroImage, 1)]) ⟨zeroNet, none, false⟩).1.2 ∧
    (test (G := Unit) (fun _ _ => 1)
          (([(zeroImage, 0), (zeroImage, 1)] : Dataset)).length
          (dataLoader 1 [(zeroImage, 0), (zeroImage, 1)]) ⟨zeroNet, none, false⟩).1.2 ≤ 1 :=
  test_metrics_bounds Unit (fun _ _ => 1) 1 [(zeroImage, 0), (zeroImage, 1)]
    ⟨zeroNet, none, false⟩ (by decide) (fun _ _ => by norm_num)

/-- C7: running the evaluation loop twice with the same Model and test
split yields identical metrics both times; the loop neither mutates the
Model parameters nor leaves any gradients behind. -/
theorem test_idempotent (G : Type) (lossFn : List Vec → List ℕ → ℚ) (dsize : ℕ)
    (batches : List Batch) (s : TState G) :
    (test lossFn dsize batches (test lossFn dsize batches s).2).1 =
      (test lossFn dsize batches s).1 ∧
    (test lossFn dsize batches s).2.net = s.net ∧
    (test lossFn dsize batches s).2.grads = s.grads := by
  refine ⟨?_, rfl, rfl⟩
  simp [test]

/-- One observable operation performed by the body of the training loop,
in program order: forward pass, loss computation, `loss.backward()`
(recording whether the parameters' gradients were unset when it ran),
`optimizer.step()`, `optimizer.zero_grad()`, and the periodic progress
print with its loss value, sample count and dataset size. -/
inductive TrainEvent where
  | forwardEv (pred : List Vec)
  | lossEv (loss : ℚ)
  | backwardEv (freshGrads : Bool)
  | stepEv
  | zeroGradEv
  | progressEv (loss : ℚ) (current dsize : ℕ)

/-- The body of `train` for one enumerated batch `(idx, b)`: compute
`pred = model(X)` and `loss = loss_fn(pred, y)`; `loss.backward()`
accumulates the new gradient onto whatever gradients are already attached;
`optimizer.step()` updates the parameters from the accumulated gradients;
`optimizer.zero_grad()` clears them; every 100 batches print
`(loss, (batch + 1) * len(X), size)`. -/
def trainStep {G : Type} (lossFn : List Vec → List ℕ → ℚ)
    (gradFn : NeuralNetwork → Batch → G) (addG : G → G → G)
    (stepFn : NeuralNetwork → G → NeuralNetwork) (dsize : ℕ)
    (s : TState G) (idx : ℕ) (b : Batch) : TState G × List TrainEvent :=
  let pred := s.net.forward b.1
  let loss := lossFn pred b.2
  let g := gradFn s.net b
  let acc := match s.grads with
    | none => g
    | some h => addG h g
  let net1 := stepFn s.net acc
  (⟨net1, none, s.training⟩,
    [TrainEvent.forwardEv pred, TrainEvent.lossEv loss,
     TrainEvent.backwardEv s.grads.isNone, TrainEvent.stepEv,
     TrainEvent.zeroGradEv] ++
    (if idx % 100 = 0 then
      [TrainEvent.progressEv loss ((idx + 1) * b.1.length) dsize] else []))

/-- The `for batch, (X, y) in enumerate(dataloader)` loop of `train`. -/
def trainAux {G : Type} (lossFn : List Vec → List ℕ → ℚ)
    (gradFn : NeuralNetwork → Batch → G) (addG : G → G → G)
    (stepFn : NeuralNetwork → G → NeuralNetwork) (dsize : ℕ) :
    TState G → ℕ → List Batch → TState G × List TrainEvent
  | s, _, [] => (s, [])
  | s, idx, b :: bs =>
      let r := trainStep lossFn gradFn addG stepFn dsize s idx b
      let r2 := trainAux lossFn gradFn addG stepFn dsize r.1 (idx + 1) bs
      (r2.1, r.2 ++ r2.2)

/-- `train(dataloader, model, loss_fn, optimizer)`: `model.train()`, then
the enumerated batch loop; `dsize` is `len(dataloader.dataset)`. -/
def train {G : Type} (lossFn : List Vec → List ℕ → ℚ)
    (gradFn : NeuralNetwork → Batch → G) (addG : G → G → G)
    (stepFn : NeuralNetwork → G → NeuralNetwork) (dsize : ℕ)
    (batches : List Batch) (s : TState G) : TState G × List TrainEvent :=
  trainAux lossFn gradFn addG stepFn dsize ⟨s.net, s.grads, true⟩ 0 batches

/-- The parameter trajectory the claim describes: one optimizer update per
batch, each computed from that single batch's gradient at the current
parameters. -/
def sgdRun {G : Type} (gradFn : NeuralNetwork → Batch → G)
    (stepFn : NeuralNetwork → G → NeuralNetwork) (net : NeuralNetwork)
    (batches : List Batch) : NeuralNetwork :=
  batches.foldl (fun n b => stepFn n (gradFn n b)) net

/-- The event trace the claim describes: for each enumerated batch, in
order, a forward pass, a loss computation, a backward pass finding no
accumulated gradients, one optimizer step, a gradient reset, and (exactly
on batch indices divisible by 100) a progress observation; the parameters
advance by one single-batch gradient step per batch. -/
def specTrace {G : Type} (lossFn : List Vec → List ℕ → ℚ)
    (gradFn : NeuralNetwork → Batch → G)
    (stepFn : NeuralNetwork → G → NeuralNetwork) (dsize : ℕ) :
    ℕ → NeuralNetwork → List Batch → List TrainEvent
  | _, _, [] => []
  | idx, net, b :: bs =>
      let pred := net.forward b.1
      let loss := lossFn pred b.2
      ([TrainEvent.forwardEv pred, TrainEvent.lossEv loss,
        TrainEvent.backwardEv true, TrainEvent.stepEv, TrainEvent.zeroGradEv] ++
       (if idx % 100 = 0 then
         [TrainEvent.progressEv loss ((idx + 1) * b.1.length) dsize] else [])) ++
      specTrace lossFn gradFn stepFn dsize (idx + 1) (stepFn net (gradFn net b)) bs

lemma trainAux_eval {G : Type} (lossFn : List Vec → List ℕ → ℚ)
    (gradFn : NeuralNetwork → Batch → G) (addG : G → G → G)
    (stepFn : NeuralNetwork → G → NeuralNetwork) (dsize : ℕ) :
    ∀ (batches : List Batch) (idx : ℕ) (s : TState G), s.grads = none →
      trainAux lossFn gradFn addG stepFn dsize s idx batches =
        (⟨sgdRun gradFn stepFn s.net batches, s.grads, s.training⟩,
         specTrace lossFn gradFn stepFn dsize idx s.net batches) := by
  intro batches
  induction batches with
  | nil => intro idx s hs; simp [trainAux, sgdRun, specTrace]
  | cons b bs ih =>
    intro idx s hs
    simp only [trainAux, trainStep, specTrace, sgdRun, List.foldl_cons, hs,
      Option.isNone_none]
    rw [ih (idx + 1) ⟨stepFn s.net (gradFn s.net b), none, s.training⟩ rfl]
    simp [sgdRun, hs]

/-- One iteration of the top-level epoch loop: a full `train` pass over the
training batches followed by a full `test` pass over the test batches. -/
def epochBody {G : Type} (lossFn : List Vec → List ℕ → ℚ)
    (gradFn : NeuralNetwork → Batch → G) (addG : G → G → G)
    (stepFn : NeuralNetwork → G → NeuralNetwork)
    (trainSize testSize : ℕ) (trainBatches testBatches : List Batch)
    (s : TState G) : TState G :=
  (test lossFn testSize testBatches
    (train lossFn gradFn addG stepFn trainSize trainBatches s).1).2

/-- The notebook's driver: `epochs = 5; for t in range(epochs): train(...);
test(...)`. -/
def runEpochs {G : Type} (lossFn : List Vec → List ℕ → ℚ)
    (gradFn : NeuralNetwork → Batch → G) (addG : G → G → G)
    (stepFn : NeuralNetwork → G → NeuralNetwork)
    (trainSize testSize : ℕ) (trainBatches testBatches : List Batch)
    (s : TState G) : TState G :=
  (List.range 5).foldl
    (fun s _ => epochBody lossFn gradFn addG stepFn trainSize testSize
      trainBatches testBatches s) s

lemma foldl_const_eq_iterate {α : Type} (f : α → α) :
    ∀ (n : ℕ) (s : α), (List.range n).foldl (fun s _ => f s) s = f^[n] s := by
  intro n
  induction n with
  | zero => intro s; simp
  | succ n ih =>
    intro s
    rw [List.range_succ, List.foldl_append, ih s]
    simp [Function.iterate_succ_apply']

/-- C2: starting from a Model whose parameters carry no gradients, the
training loop performs, for every enumerated batch in order: forward pass,
loss computation, backward pass (with no previously accumulated
gradients), exactly one optimizer step using that batch's gradients, and a
gradient reset before the next batch; and the epoch driver re-runs the
full train-then-test pass exactly 5 times. -/
theorem train_loop_contract (G : Type) (lossFn : List Vec → List ℕ → ℚ)
    (gradFn : NeuralNetwork → Batch → G) (addG : G → G → G)
    (stepFn : NeuralNetwork → G → NeuralNetwork)
    (trainSize testSize : ℕ) (trainBatches testBatches : List Batch)
    (s : TState G) (hs : s.grads = none) :
    (train lossFn gradFn addG stepFn trainSize trainBatches s).2 =
      specTrace lossFn gradFn stepFn trainSize 0 s.net trainBatches ∧
    (train lossFn gradFn addG stepFn trainSize trainBatches s).1.net =
      sgdRun gradFn stepFn s.net trainBatches ∧
    (train lossFn gradFn addG stepFn trainSize trainBatches s).1.grads = none ∧
    runEpochs lossFn gradFn addG stepFn trainSize testSize trainBatches testBatches s =
      (epochBody lossFn gradFn addG stepFn trainSize testSize
        trainBatches testBatches)^[5] s := by
  have h := trainAux_eval lossFn gradFn addG stepFn trainSize trainBatches 0
    ⟨s.net, s.grads, true⟩ hs
  refine ⟨?_, ?_, ?_, ?_⟩
  · rw [train, h]
  · rw [train, h]
  · rw [train, h]; exact hs
  · exact foldl_const_eq_iterate _ 5 s

/-- Witness for C2 at trivial gradient/optimizer collaborators, a
one-batch training iterator and an empty test iterator. -/
theorem train_loop_contract_witness :
    (train (G := Unit) (fun _ _ => 1) (fun _ _ => ()) (fun _ _ => ())
        (fun n _ => n) 1 [([zeroImage], [0])] ⟨zeroNet, none, false⟩).2 =
      specTrace (fun _ _ => 1) (fun _ _ => ()) (fun n _ => n) 1 0 zeroNet
        [([zeroImage], [0])] ∧
    (train (G := Unit) (fun _ _ => 1) (fun _ _ => ()) (fun _ _ => ())
        (fun n _ => n) 1 [([zeroImage], [0])] ⟨zeroNet, none, false⟩).1.net =
      sgdRun (fun _ _ => ()) (fun n _ => n) zeroNet [([zeroImage], [0])] ∧
    (train (G := Unit) (fun _ _ => 1) (fun _ _ => ()) (fun _ _ => ())
        (fun n _ => n) 1 [([zeroImage], [0])] ⟨zeroNet, none, false⟩).1.grads = none ∧
    runEpochs (G := Unit) (fun _ _ => 1) (fun _ _ => ()) (fun _ _ => ())
        (fun n _ => n) 1 0 [([zeroImage], [0])] [] ⟨zeroNet, none, false⟩ =
      (epochBody (fun _ _ => 1) (fun _ _ => ()) (fun _ _ => ())
        (fun n _ => n) 1 0 [([zeroImage], [0])] [])^[5] ⟨zeroNet, none, false⟩ :=
  train_loop_contract Unit (fun _ _ => 1) (fun _ _ => ()) (fun _ _ => ())
    (fun n _ => n) 1 0 [([zeroImage], [0])] [] ⟨zeroNet, none, false⟩ rfl

lemma specTrace_backward_fresh {G : Type} (lossFn : List Vec → List ℕ → ℚ)
    (gradFn : NeuralNetwork → Batch → G)
    (stepFn : NeuralNetwork → G → NeuralNetwork) (dsize : ℕ) :
    ∀ (batches : List Batch) (idx : ℕ) (net : NeuralNetwork),
      ∀ ev ∈ specTrace lossFn gradFn stepFn dsize idx net batches,
        ∀ fresh, ev = TrainEvent.backwardEv fresh → fresh = true := by
  intro batches
  induction batches with
  | nil => intro idx net ev hev; simp [specTrace] at hev
  | cons b bs ih =>
    intro idx net ev hev fresh hfresh
    subst hfresh
    by_cases hc : idx % 100 = 0 <;>
      simp only [specTrace, hc, if_pos, if_neg, List.mem_append, List.mem_cons,
        List.not_mem_nil, or_false, reduceCtorEq, false_or, if_true, if_false,
        TrainEvent.backwardEv.injEq] at hev <;>
      rcases hev with h | h
    · exact h
    · exact ih (idx + 1) (stepFn net (gradFn net b)) _ h fresh rfl
    · exact h
    · exact ih (idx + 1) (stepFn net (gradFn net b)) _ h fresh rfl

/-- C9: starting from a freshly constructed Model (no gradients attached),
every backward pass in the training loop runs with the accumulated
gradients unset — the reset at the end of each iteration guarantees it —
so every optimizer step uses gradients computed from exactly one batch. -/
theorem backward_gradients_fresh (G : Type) (lossFn : List Vec → List ℕ → ℚ)
    (gradFn : NeuralNetwork → Batch → G) (addG : G → G → G)
    (stepFn : NeuralNetwork → G → NeuralNetwork) (dsize : ℕ)
    (batches : List Batch) (s : TState G) (hs : s.grads = none) :
    (∀ ev ∈ (train lossFn gradFn addG stepFn dsize batches s).2,
      ∀ fresh, ev = TrainEvent.backwardEv fresh → fresh = true) ∧
    (train lossFn gradFn addG stepFn dsize batches s).1.net =
      sgdRun gradFn stepFn s.net batches := by
  have h := trainAux_eval lossFn gradFn addG stepFn dsize batches 0
    ⟨s.net, s.grads, true⟩ hs
  constructor
  · intro ev hev
    rw [train, h] at hev
    exact specTrace_backward_fresh lossFn gradFn stepFn dsize batches 0 s.net ev hev
  · rw [train, h]

/-- Witness for C9 at trivial gradient/optimizer collaborators and a
two-batch iterator. -/
theorem backward_gradients_fresh_witness :
    (∀ ev ∈ (train (G := Unit) (fun _ _ => 1) (fun _ _ => ()) (fun _ _ => ())
        (fun n _ => n) 2 [([zeroImage], [0]), ([zeroImage], [1])]
        ⟨zeroNet, none, false⟩).2,
      ∀ fresh, ev = TrainEvent.backwardEv fresh → fresh = true) ∧
    (train (G := Unit) (fun _ _ => 1) (fun _ _ => ()) (fun _ _ => ())
        (fun n _ => n) 2 [([zeroImage], [0]), ([zeroImage], [1])]
        ⟨zeroNet, none, false⟩).1.net =
      sgdRun (fun _ _ => ()) (fun n _ => n) zeroNet
        [([zeroImage], [0]), ([zeroImage], [1])] :=
  backward_gradients_fresh Unit (fun _ _ => 1) (fun _ _ => ()) (fun _ _ => ())
    (fun n _ => n) 2 [([zeroImage], [0]), ([zeroImage], [1])]
    ⟨zeroNet, none, false⟩ rfl

/-- The progress observations among the training events. -/
def progressOf : TrainEvent → Option (ℚ × ℕ × ℕ)
  | TrainEvent.progressEv l c d => some (l, c, d)
  | _ => none

/-- The progress log the claim describes: scanning the enumerated batches
while keeping a running count of samples processed, emit — exactly on
batch indices divisible by 100 — the current loss, the number of samples
processed so far (including the current batch), and the dataset size. -/
def specProgress {G : Type} (lossFn : List Vec → List ℕ → ℚ)
    (gradFn : NeuralNetwork → Batch → G)
    (stepFn : NeuralNetwork → G → NeuralNetwork) (dsize : ℕ) :
    ℕ → NeuralNetwork → ℕ → List Batch → List (ℚ × ℕ × ℕ)
  | _, _, _, [] => []
  | idx, net, processed, b :: bs =>
      (if idx % 100 = 0 then
        [(lossFn (net.forward b.1) b.2, processed + b.1.length, dsize)] else []) ++
      specProgress lossFn gradFn stepFn dsize (idx + 1)
        (stepFn net (gradFn net b)) (processed + b.1.length) bs

lemma specTrace_filter_progress {G : Type} (lossFn : List Vec → List ℕ → ℚ)
    (gradFn : NeuralNetwork → Batch → G)
    (stepFn : NeuralNetwork → G → NeuralNetwork) (dsize c : ℕ) :
    ∀ (batches : List Batch) (idx processed : ℕ) (net : NeuralNetwork),
      (∀ b ∈ batches, b.1.length = c) → processed = idx * c →
      (specTrace lossFn gradFn stepFn dsize idx net batches).filterMap progressOf =
        specProgress lossFn gradFn stepFn dsize idx net processed batches := by
  intro batches
  induction batches with
  | nil => intro idx processed net hb hp; simp [specTrace, specProgress]
  | cons b bs ih =>
    intro idx processed net hb hp
    have hblen : b.1.length = c := hb b (List.mem_cons_self b bs)
    simp only [specTrace, specProgress, List.filterMap_append]
    rw [ih (idx + 1) (processed + b.1.length) (stepFn net (gradFn net b))
      (fun x hx => hb x (List.mem_cons_of_mem b hx)) (by rw [hp, hblen]; ring)]
    refine congrArg (fun z => z ++ _) ?_
    by_cases hc : idx % 100 = 0
    · rw [if_pos hc, if_pos hc]
      simp [progressOf, hp, hblen]
      ring
    · rw [if_neg hc, if_neg hc]
      simp [progressOf]

/-- C8: during training over uniformly sized batches, a progress
observation is emitted exactly on batch indices divisible by 100, and it
carries the current loss value, the number of samples processed so far and
the total dataset size. -/
theorem train_progress_emission (G : Type) (lossFn : List Vec → List ℕ → ℚ)
    (gradFn : NeuralNetwork → Batch → G) (addG : G → G → G)
    (stepFn : NeuralNetwork → G → NeuralNetwork) (dsize c : ℕ)
    (batches : List Batch) (s : TState G) (hs : s.grads = none)
    (hb : ∀ b ∈ batches, b.1.length = c) :
    ((train lossFn gradFn addG stepFn dsize batches s).2).filterMap progressOf =
      specProgress lossFn gradFn stepFn dsize 0 s.net 0 batches := by
  have h := trainAux_eval lossFn gradFn addG stepFn dsize batches 0
    ⟨s.net, s.grads, true⟩ hs
  rw [train, h]
  exact specTrace_filter_progress lossFn gradFn stepFn dsize c batches 0 0
    s.net hb (by simp)

/-- Witness for C8 at trivial collaborators and a two-batch iterator of
single-sample batches. -/
theorem train_progress_emission_witness :
    ((train (G := Unit) (fun _ _ => 1) (fun _ _ => ()) (fun _ _ => ())
        (fun n _ => n) 2 [([zeroImage], [0]), ([zeroImage], [1])]
        ⟨zeroNet, none, false⟩).2).filterMap progressOf =
      specProgress (fun _ _ => 1) (fun _ _ => ()) (fun n _ => n) 2 0 zeroNet 0
        [([zeroImage], [0]), ([zeroImage], [1])] :=
  train_progress_emission Unit (fun _ _ => 1) (fun _ _ => ()) (fun _ _ => ())
    (fun n _ => n) 2 1 [([zeroImage], [0]), ([zeroImage], [1])]
    ⟨zeroNet, none, false⟩ rfl
    (by
      intro b hb
      simp only [List.mem_cons, List.not_mem_nil, or_false] at hb
      rcases hb with h | h <;> subst h <;> rfl)

/-- One token of the serialized model file. -/
inductive Tok where
  | nat (n : ℕ)
  | str (s : String)
  | rat (q : ℚ)
deriving DecidableEq

/-- One entry of a state dictionary: parameter name, tensor shape, and the
tensor's values flattened in row-major order. -/
abbrev TensorEntry := String × List ℕ × List ℚ

/-- A (ordered) state dictionary, as `model.state_dict()` produces it. -/
abbrev StateDict := List TensorEntry

/-- The shape of a 2-dimensional weight tensor stored as a row list. -/
def weightShape (w : List Vec) : List ℕ := [w.length, (w.head?.getD []).length]

/-- The two state-dict entries contributed by one `nn.Linear` submodule. -/
def Linear.entries (name : String) (l : Linear) : StateDict :=
  [(name ++ ".weight", weightShape l.weight, l.weight.flatten),
   (name ++ ".bias", [l.bias.length], l.bias)]

/-- `model.state_dict()`: the parameter tensors of the three linear layers
of `linear_relu_stack`, in module order. -/
def NeuralNetwork.stateDict (n : NeuralNetwork) : StateDict :=
  Linear.entries "linear_relu_stack.0" n.fc1 ++
  Linear.entries "linear_relu_stack.2" n.fc2 ++
  Linear.entries "linear_relu_stack.4" n.fc3

/-- Modelled from the spec: `torch.save(model.state_dict(), path)`
serializes the parameter values (not the topology) into an opaque file,
here a token stream: entry count, then for each entry its name, the shape
length and shape, and the value count and values. -/
def torchSave (sd : StateDict) : List Tok :=
  Tok.nat sd.length ::
    (sd.map (fun e =>
      Tok.str e.1 :: Tok.nat e.2.1.length ::
        (e.2.1.map Tok.nat ++ (Tok.nat e.2.2.length :: e.2.2.map Tok.rat)))).flatten

/-- The per-entry encoding used by `torchSave`. -/
def encodeEntry (e : TensorEntry) : List Tok :=
  Tok.str e.1 :: Tok.nat e.2.1.length ::
    (e.2.1.map Tok.nat ++ (Tok.nat e.2.2.length :: e.2.2.map Tok.rat))

lemma torchSave_eq (sd : StateDict) :
    torchSave sd = Tok.nat sd.length :: (sd.map encodeEntry).flatten := rfl

/-- Read `k` naturals from the front of the stream. -/
def readNats : ℕ → List Tok → Except String (List ℕ × List Tok)
  | 0, ts => Except.ok ([], ts)
  | k + 1, Tok.nat n :: ts =>
      match readNats k ts with
      | Except.ok (ns, r) => Except.ok (n :: ns, r)
      | Except.error msg => Except.error msg
  | _ + 1, _ => Except.error "corrupt model file"

/-- Read `k` rationals from the front of the stream. -/
def readRats : ℕ → List Tok → Except String (List ℚ × List Tok)
  | 0, ts => Except.ok ([], ts)
  | k + 1, Tok.rat q :: ts =>
      match readRats k ts with
      | Except.ok (qs, r) => Except.ok (q :: qs, r)
      | Except.error msg => Except.error msg
  | _ + 1, _ => Except.error "corrupt model file"

/-- Read one serialized tensor entry from the front of the stream. -/
def readEntry : List Tok → Except String (TensorEntry × List Tok)
  | Tok.str s :: Tok.nat d :: ts =>
      match readNats d ts with
      | Except.ok (shape, r1) =>
          match r1 with
          | Tok.nat c :: r2 =>
              match readRats c r2 with
              | Except.ok (vals, r3) => Except.ok ((s, shape, vals), r3)
              | Except.error msg => Except.error msg
          | _ => Except.error "corrupt model file"
      | Except.error msg => Except.error msg
  | _ => Except.error "corrupt model file"

/-- Read `k` serialized tensor entries from the front of the stream. -/
def readEntries : ℕ → List Tok → Except String (StateDict × List Tok)
  | 0, ts => Except.ok ([], ts)
  | k + 1, ts =>
      match readEntry ts with
      | Except.ok (e, r) =>
          match readEntries k r with
          | Except.ok (sd, r2) => Except.ok (e :: sd, r2)
          | Except.error msg => Except.error msg
      | Except.error msg => Except.error msg

/-- Modelled from the spec: `torch.load(path)` deserializes the file back
into a state dictionary and fails on anything that is not a complete,
well-formed serialization. -/
def torchLoad : List Tok → Except String StateDict
  | Tok.nat k :: ts =>
      match readEntries k ts with
      | Except.ok (sd, []) => Except.ok sd
      | Except.ok (_, _ :: _) => Except.error "corrupt model file"
      | Except.error msg => Except.error msg
  | _ => Except.error "corrupt model file"

/-- Modelled from the spec: reading the model file from disk; an absent
file yields an error, otherwise its token stream is deserialized. -/
def torchLoadFile : Option (List Tok) → Except String StateDict
  | none => Except.error "no such file: model.pth"
  | some ts => torchLoad ts

/-- The names and shapes of a state dictionary's entries. -/
def sdShapes (sd : StateDict) : List (String × List ℕ) :=
  sd.map (fun e => (e.1, e.2.1))

/-- Reassemble a `NeuralNetwork` from a six-entry state dictionary,
unflattening each weight tensor according to its recorded shape. -/
def rebuild : StateDict → Option NeuralNetwork
  | [(_, s1, d1), (_, _, b1), (_, s2, d2), (_, _, b2), (_, s3, d3), (_, _, b3)] =>
      some ⟨⟨chunkList (s1.getD 1 0) d1, b1⟩,
            ⟨chunkList (s2.getD 1 0) d2, b2⟩,
            ⟨chunkList (s3.getD 1 0) d3, b3⟩⟩
  | _ => none

/-- Modelled from the spec: `model.load_state_dict(sd)` replaces the live
Model's parameter values with those of `sd`; it fails fatally (rather than
truncating or padding) unless the names and shapes match the live Model's
own state dictionary exactly. -/
def NeuralNetwork.load_state_dict (live : NeuralNetwork) (sd : StateDict) :
    Except String NeuralNetwork :=
  if sdShapes sd = sdShapes live.stateDict then
    match rebuild sd with
    | some n2 => Except.ok n2
    | none => Except.error "size mismatch for model parameters"
  else Except.error "size mismatch for model parameters"

lemma readNats_encode (ns : List ℕ) (rest : List Tok) :
    readNats ns.length (ns.map Tok.nat ++ rest) = Except.ok (ns, rest) := by
  induction ns with
  | nil => rfl
  | cons n ns ih => simp [readNats, ih]

lemma readRats_encode (qs : List ℚ) (rest : List Tok) :
    readRats qs.length (qs.map Tok.rat ++ rest) = Except.ok (qs, rest) := by
  induction qs with
  | nil => rfl
  | cons q qs ih => simp [readRats, ih]

lemma readEntry_encode (e : TensorEntry) (rest : List Tok) :
    readEntry (encodeEntry e ++ rest) = Except.ok (e, rest) := by
  obtain ⟨s, shape, vals⟩ := e
  have h1 : readNats shape.length
      (shape.map Tok.nat ++ (Tok.nat vals.length :: (vals.map Tok.rat ++ rest))) =
      Except.ok (shape, Tok.nat vals.length :: (vals.map Tok.rat ++ rest)) :=
    readNats_encode shape _
  have h2 : readRats vals.length (vals.map Tok.rat ++ rest) =
      Except.ok (vals, rest) := readRats_encode vals rest
  simp only [encodeEntry, List.cons_append, List.append_assoc, readEntry, h1, h2]

lemma readEntries_encode (sd : StateDict) (rest : List Tok) :
    readEntries sd.length ((sd.map encodeEntry).flatten ++ rest) =
      Except.ok (sd, rest) := by
  induction sd with
  | nil => rfl
  | cons e sd ih =>
    have h1 : readEntry (encodeEntry e ++ ((sd.map encodeEntry).flatten ++ rest)) =
        Except.ok (e, (sd.map encodeEntry).flatten ++ rest) := readEntry_encode e _
    simp only [List.length_cons, List.map_cons, List.flatten_cons, readEntries,
      List.append_assoc, h1, ih]

lemma torchLoad_torchSave (sd : StateDict) :
    torchLoad (torchSave sd) = Except.ok sd := by
  rw [torchSave_eq]
  simp only [torchLoad]
  have h := readEntries_encode sd []
  rw [List.append_nil] at h
  rw [h]

lemma readNats_sound : ∀ (k : ℕ) (ts : List Tok) (ns : List ℕ) (r : List Tok),
    readNats k ts = Except.ok (ns, r) → ts = ns.map Tok.nat ++ r ∧ ns.length = k := by
  intro k
  induction k with
  | zero =>
    intro ts ns r h
    simp only [readNats, Except.ok.injEq, Prod.mk.injEq] at h
    rw [← h.1, ← h.2]
    exact ⟨rfl, rfl⟩
  | succ k ih =>
    intro ts ns r h
    match ts with
    | Tok.nat n :: ts0 =>
      simp only [readNats] at h
      match hrec : readNats k ts0 with
      | Except.ok (ns0, r0) =>
        rw [hrec] at h
        simp only [Except.ok.injEq, Prod.mk.injEq] at h
        obtain ⟨hns, hr⟩ := h
        obtain ⟨hts0, hlen⟩ := ih ts0 ns0 r0 hrec
        subst hns hr hts0 hlen
        exact ⟨rfl, rfl⟩
      | Except.error msg => rw [hrec] at h; cases h
    | Tok.str s :: ts0 => cases h
    | Tok.rat q :: ts0 => cases h
    | [] => cases h

lemma readRats_sound : ∀ (k : ℕ) (ts : List Tok) (qs : List ℚ) (r : List Tok),
    readRats k ts = Except.ok (qs, r) → ts = qs.map Tok.rat ++ r ∧ qs.length = k := by
  intro k
  induction k with
  | zero =>
    intro ts qs r h
    simp only [readRats, Except.ok.injEq, Prod.mk.injEq] at h
    rw [← h.1, ← h.2]
    exact ⟨rfl, rfl⟩
  | succ k ih =>
    intro ts qs r h
    match ts with
    | Tok.rat q :: ts0 =>
      simp only [readRats] at h
      match hrec : readRats k ts0 with
      | Except.ok (qs0, r0) =>
        rw [hrec] at h
        simp only [Except.ok.injEq, Prod.mk.injEq] at h
        obtain ⟨hqs, hr⟩ := h
        obtain ⟨hts0, hlen⟩ := ih ts0 qs0 r0 hrec
        subst hqs hr hts0 hlen
        exact ⟨rfl, rfl⟩
      | Except.error msg => rw [hrec] at h; cases h
    | Tok.str s :: ts0 => cases h
    | Tok.nat n :: ts0 => cases h
    | [] => cases h

lemma readEntry_sound (ts : List Tok) (e : TensorEntry) (r : List Tok)
    (h : readEntry ts = Except.ok (e, r)) : ts = encodeEntry e ++ r := by
  match ts with
  | Tok.str s :: Tok.nat d :: ts0 =>
    simp only [readEntry] at h
    match hn : readNats d ts0 with
    | Except.ok (shape, r1) =>
      simp only [hn] at h
      match r1, hn with
      | Tok.nat c :: r2, hn =>
        simp only at h
        match hq : readRats c r2 with
        | Except.ok (vals, r3) =>
          simp only [hq, Except.ok.injEq, Prod.mk.injEq] at h
          obtain ⟨he, hr⟩ := h
          subst he hr
          obtain ⟨hts0, hd⟩ := readNats_sound d ts0 shape (Tok.nat c :: r2) hn
          obtain ⟨hr2, hc⟩ := readRats_sound c r2 vals r3 hq
          subst hts0 hr2 hd hc
          simp [encodeEntry]
        | Except.error msg =>
            simp only [hq] at h
            exact Except.noConfusion h
      | Tok.str s0 :: r2, hn => exact absurd h (by simp)
      | Tok.rat q0 :: r2, hn => exact absurd h (by simp)
      | [], hn => exact absurd h (by simp)
    | Except.error msg =>
        simp only [hn] at h
        exact Except.noConfusion h
  | [] => cases h
  | [Tok.str s] => cases h
  | Tok.str s :: Tok.str s2 :: ts0 => cases h
  | Tok.str s :: Tok.rat q :: ts0 => cases h
  | Tok.nat n :: ts0 => cases h
  | Tok.rat q :: ts0 => cases h

lemma readEntries_sound : ∀ (k : ℕ) (ts : List Tok) (sd : StateDict) (r : List Tok),
    readEntries k ts = Except.ok (sd, r) →
      ts = (sd.map encodeEntry).flatten ++ r ∧ sd.length = k := by
  intro k
  induction k with
  | zero =>
    intro ts sd r h
    simp only [readEntries, Except.ok.injEq, Prod.mk.injEq] at h
    rw [← h.1, ← h.2]
    exact ⟨rfl, rfl⟩
  | succ k ih =>
    intro ts sd r h
    simp only [readEntries] at h
    match he : readEntry ts with
    | Except.ok (e, r1) =>
      simp only [he] at h
      match hrec : readEntries k r1 with
      | Except.ok (sd0, r2) =>
        simp only [hrec, Except.ok.injEq, Prod.mk.injEq] at h
        obtain ⟨hsd, hr⟩ := h
        subst hsd hr
        obtain ⟨hr1, hlen⟩ := ih r1 sd0 r2 hrec
        subst hlen
        rw [readEntry_sound ts e r1 he, hr1]
        simp
      | Except.error msg =>
          simp only [hrec] at h
          exact Except.noConfusion h
    | Except.error msg =>
        simp only [he] at h
        exact Except.noConfusion h

lemma torchLoad_sound (ts : List Tok) (sd : StateDict)
    (h : torchLoad ts = Except.ok sd) : ts = torchSave sd := by
  match ts with
  | Tok.nat k :: ts0 =>
    simp only [torchLoad] at h
    match hrec : readEntries k ts0 with
    | Except.ok (sd0, []) =>
      simp only [hrec, Except.ok.injEq] at h
      subst h
      obtain ⟨hts0, hlen⟩ := readEntries_sound k ts0 sd0 [] hrec
      rw [torchSave_eq, ← hlen, hts0, List.append_nil]
    | Except.ok (sd0, t :: r) =>
        simp only [hrec] at h
        exact Except.noConfusion h
    | Except.error msg =>
        simp only [hrec] at h
        exact Except.noConfusion h
  | [] => cases h
  | Tok.str s :: ts0 => cases h
  | Tok.rat q :: ts0 => cases h

lemma chunkAux_flatten_rows {α : Type} (n : ℕ) :
    ∀ (rows : List (List α)) (fuel : ℕ), (∀ r ∈ rows, r.length = n) → 0 < n →
      rows.flatten.length ≤ fuel → chunkAux fuel n rows.flatten = rows := by
  intro rows
  induction rows with
  | nil =>
    intro fuel hr hn hfuel
    match fuel with
    | 0 => rfl
    | _ + 1 => rfl
  | cons r rest ih =>
    intro fuel hr hn hfuel
    have hrlen : r.length = n := hr r (List.mem_cons_self r rest)
    obtain ⟨a, r0, rfl⟩ : ∃ a r0, r = a :: r0 := by
      match r, hrlen with
      | a :: r0, _ => exact ⟨a, r0, rfl⟩
      | [], hrlen => rw [← hrlen] at hn; cases hn
    match fuel with
    | 0 =>
      exfalso
      simp only [List.flatten_cons, List.length_append, List.length_cons,
        Nat.le_zero] at hfuel
      omega
    | fuel + 1 =>
      have hstep : ((a :: r0) :: rest).flatten = a :: (r0 ++ rest.flatten) := by
        simp
      rw [hstep]
      show ((a :: (r0 ++ rest.flatten)).take n) ::
          chunkAux fuel n ((a :: (r0 ++ rest.flatten)).drop n) = (a :: r0) :: rest
      have htake : (a :: (r0 ++ rest.flatten)).take n = a :: r0 := by
        rw [show a :: (r0 ++ rest.flatten) = (a :: r0) ++ rest.flatten by simp,
          ← hrlen, List.take_left]
      have hdrop : (a :: (r0 ++ rest.flatten)).drop n = rest.flatten := by
        rw [show a :: (r0 ++ rest.flatten) = (a :: r0) ++ rest.flatten by simp,
          ← hrlen, List.drop_left]
      rw [htake, hdrop, ih fuel (fun x hx => hr x (List.mem_cons_of_mem _ hx)) hn ?_]
      simp only [List.flatten_cons, List.length_append, List.length_cons] at hfuel
      omega

lemma chunkList_flatten_rows {α : Type} (n : ℕ) (rows : List (List α))
    (hn : 0 < n) (hr : ∀ r ∈ rows, r.length = n) :
    chunkList n rows.flatten = rows :=
  chunkAux_flatten_rows n rows rows.flatten.length hr hn (Nat.le_refl _)

lemma weightShape_eq (w : List Vec) (o i : ℕ) (ho : w.length = o)
    (hi : ∀ r ∈ w, r.length = i) (hpos : 0 < o) : weightShape w = [o, i] := by
  obtain ⟨a, t, rfl⟩ : ∃ a t, w = a :: t := by
    match w, ho with
    | a :: t, _ => exact ⟨a, t, rfl⟩
    | [], ho => rw [← ho] at hpos; cases hpos
  simp only [weightShape, List.head?_cons, Option.getD_some, ho]
  rw [hi a (List.mem_cons_self a t)]

/-- The names and shapes every well-formed network's state dict exposes. -/
def canonicalShapes : List (String × List ℕ) :=
  [("linear_relu_stack.0.weight", [512, 784]), ("linear_relu_stack.0.bias", [512]),
   ("linear_relu_stack.2.weight", [512, 512]), ("linear_relu_stack.2.bias", [512]),
   ("linear_relu_stack.4.weight", [10, 512]), ("linear_relu_stack.4.bias", [10])]

lemma sdShapes_of_wellFormed (n : NeuralNetwork) (hn : n.wellFormed) :
    sdShapes n.stateDict = canonicalShapes := by
  obtain ⟨⟨h1o, h1i, h1b⟩, ⟨h2o, h2i, h2b⟩, ⟨h3o, h3i, h3b⟩⟩ := hn
  simp only [sdShapes, NeuralNetwork.stateDict, Linear.entries, List.map_append,
    List.map_cons, List.map_nil, canonicalShapes]
  rw [weightShape_eq n.fc1.weight 512 784 h1o h1i (by omega),
    weightShape_eq n.fc2.weight 512 512 h2o h2i (by omega),
    weightShape_eq n.fc3.weight 10 512 h3o h3i (by omega), h1b, h2b, h3b]
  rfl

/-- C4: saving a Model's parameters and loading the file into a freshly
constructed Model of identical topology succeeds and reproduces the
original parameters exactly, so the two Models produce identical output on
every input. -/
theorem save_load_roundtrip (n fresh : NeuralNetwork)
    (hn : n.wellFormed) (hf : fresh.wellFormed) :
    torchLoad (torchSave n.stateDict) = Except.ok n.stateDict ∧
    ∃ n2, fresh.load_state_dict n.stateDict = Except.ok n2 ∧
      n2 = n ∧ ∀ x : List Image3, n2.forward x = n.forward x := by
  refine ⟨torchLoad_torchSave n.stateDict, ?_⟩
  have hshapes : sdShapes n.stateDict = sdShapes fresh.stateDict := by
    rw [sdShapes_of_wellFormed n hn, sdShapes_of_wellFormed fresh hf]
  obtain ⟨⟨h1o, h1i, h1b⟩, ⟨h2o, h2i, h2b⟩, ⟨h3o, h3i, h3b⟩⟩ := hn
  refine ⟨n, ?_, rfl, fun x => rfl⟩
  have hrebuild : rebuild n.stateDict =
      some ⟨⟨chunkList ((weightShape n.fc1.weight).getD 1 0) n.fc1.weight.flatten, n.fc1.bias⟩,
            ⟨chunkList ((weightShape n.fc2.weight).getD 1 0) n.fc2.weight.flatten, n.fc2.bias⟩,
            ⟨chunkList ((weightShape n.fc3.weight).getD 1 0) n.fc3.weight.flatten, n.fc3.bias⟩⟩ :=
    rfl
  have hw1 : (weightShape n.fc1.weight).getD 1 0 = 784 := by
    rw [weightShape_eq n.fc1.weight 512 784 h1o h1i (by omega)]; rfl
  have hw2 : (weightShape n.fc2.weight).getD 1 0 = 512 := by
    rw [weightShape_eq n.fc2.weight 512 512 h2o h2i (by omega)]; rfl
  have hw3 : (weightShape n.fc3.weight).getD 1 0 = 512 := by
    rw [weightShape_eq n.fc3.weight 10 512 h3o h3i (by omega)]; rfl
  unfold NeuralNetwork.load_state_dict
  rw [if_pos hshapes, hrebuild, hw1, hw2, hw3,
    chunkList_flatten_rows 784 n.fc1.weight (by omega) h1i,
    chunkList_flatten_rows 512 n.fc2.weight (by omega) h2i,
    chunkList_flatten_rows 512 n.fc3.weight (by omega) h3i]

/-- Witness for C4 at the zero network saved and loaded into a second zero
network. -/
theorem save_load_roundtrip_witness :
    torchLoad (torchSave zeroNet.stateDict) = Except.ok zeroNet.stateDict ∧
    ∃ n2, zeroNet.load_state_dict zeroNet.stateDict = Except.ok n2 ∧
      n2 = zeroNet ∧ ∀ x : List Image3, n2.forward x = zeroNet.forward x :=
  save_load_roundtrip zeroNet zeroNet zeroNet_wellFormed zeroNet_wellFormed

/-- C5: loading fails fatally rather than truncating or padding: a state
dictionary whose names or shapes do not exactly match the live Model's
topology is rejected, an absent file is rejected, and only exact
serializations produced by the save operation deserialize successfully
(anything else — a corrupt file — is rejected). -/
theorem load_mismatch_fails :
    (∀ (live : NeuralNetwork) (sd : StateDict),
      sdShapes sd ≠ sdShapes live.stateDict →
      live.load_state_dict sd = Except.error "size mismatch for model parameters") ∧
    torchLoadFile none = Except.error "no such file: model.pth" ∧
    ∀ (ts : List Tok) (sd : StateDict), torchLoad ts = Except.ok sd →
      ts = torchSave sd := by
  refine ⟨?_, rfl, torchLoad_sound⟩
  intro live sd hne
  unfold NeuralNetwork.load_state_dict
  rw [if_neg hne]

/-- Witness for C5: a saved 784-to-256 first layer (shape [256, 784]) is
rejected when loaded into a Model expecting a 784-to-512 first layer, and
a valid round-trip pins down the file contents. -/
theorem load_mismatch_fails_witness :
    zeroNet.load_state_dict [("linear_relu_stack.0.weight", [256, 784], [])] =
      Except.error "size mismatch for model parameters" ∧
    torchLoadFile none = Except.error "no such file: model.pth" ∧
    [Tok.nat 0] = torchSave ([] : StateDict) :=
  ⟨load_mismatch_fails.1 zeroNet [("linear_relu_stack.0.weight", [256, 784], [])]
      (by
        intro h
        rw [sdShapes_of_wellFormed zeroNet zeroNet_wellFormed] at h
        simp [sdShapes, canonicalShapes] at h),
   load_mismatch_fails.2.1,
   load_mismatch_fails.2.2 [Tok.nat 0] [] rfl⟩

end FashionMNIST
